import Mathlib

/-!
Verification development for the `cuddly_kangaroo` Markdown static site
generator (`src/main.rs`).  The Rust program is shallowly embedded below:

* external collaborators (the pulldown-cmark parser, the HTML serializer,
  syntect highlighting, the gh-emoji replacer, toml deserialization,
  mime guessing, base64, and the filesystem) are abstracted as fields of
  an `Env` record, exactly as the specification declares them out of
  scope ("external collaborators with fixed contracts");
* the program's own logic (`Website::process_md`, `Website::process_file`,
  `Website::create`, `Website::read_to_base64`, `Website::load_asset` and
  the three built-in handlers) is translated function by function;
* Rust `Result` plus the possibility of a `panic!`/`unwrap` abort is
  modeled by the three-valued `PResult`;
* `PathBuf` is modeled as its list of components, so `Path::join` with a
  relative path is list append and `strip_prefix` is list prefix removal.
-/

namespace CuddlyKangaroo

/-- A filesystem path, as its list of components (`PathBuf`). -/
abbrev Path := List String

/-- An `std::io::Error`, abstracted to its message. -/
abbrev IOErr := String

/-- A `toml::de::Error`, abstracted to its message. -/
abbrev TomlErr := String

/-- The `Error` enum of `src/main.rs` (payloads that are external error
types are abstracted to strings; `StripPrefixError` carries nothing
useful for us, so only the offending path is kept).  Two variants are
renamed (`StripPrefixError` for `StripPrefix`, `LoadSyntaxError` for
`LoadSyntax`); all the others keep their source names. -/
inductive Error where
  | ReadBase64Asset (p : Path) (e : IOErr)
  | WebsiteJoin (e : String)
  | ConfigRead (p : Path) (e : IOErr)
  | ConfigParse (p : Path) (e : TomlErr)
  | StripPrefixError (p : Path)
  | MissingHandler (p : Path) (name : String)
  | LoadSyntaxError (e : String)
  | CreateOutputDir (p : Path) (e : IOErr)
  | ReadDirectory (p : Path) (e : IOErr)
  | ReadMarkdownInput (p : Path) (e : IOErr)
  | ReadStyle (doc : Path) (style : Path) (e : IOErr)
  | ReadTemplate (doc : Path) (tmpl : Path) (e : IOErr)
  | ParseTemplateInfo (p : Path) (e : TomlErr)
  | WriteOutput (p : Path) (e : IOErr)
  | TemplateInfoMissing (p : Path)
  deriving DecidableEq, Repr

/-- The value of a Rust computation that returns `Result<α, Error>` but
may additionally abort: `.panic` is the outcome of a `panic!` or of
`.unwrap()` on an error/`None`. -/
inductive PResult (α : Type) where
  | ok (a : α)
  | error (e : Error)
  | panic
  deriving DecidableEq, Repr

/-- `true` exactly on a successful (`Ok`) outcome. -/
def PResult.isOk {α : Type} : PResult α → Bool
  | .ok _ => true
  | _ => false

/-- The `TemplateInfo` struct: per-document page metadata parsed from the
`templateinfo` block (`time` is abstracted to a string; `DateTime`
formatting is external). -/
structure TemplateInfo where
  style : Path
  template : Path
  favicon : Path
  time : String
  title : String
  description : String
  deriving DecidableEq, Repr

/-- The `Config` struct parsed from the per-website configuration toml. -/
structure Config where
  syntax_theme : String
  content_path : Path
  output_path : Path
  base_file : Path
  header_file : Path
  deriving DecidableEq, Repr

/-- `HeaderConfig`: left/right navigation groups of
(icon-path-or-label, href) pairs. -/
structure HeaderConfig where
  left : List (String × String)
  right : List (String × String)
  deriving DecidableEq, Repr

/-- `IncludeConfig`: the path of the document to include. -/
structure IncludeConfig where
  path : Path
  deriving DecidableEq, Repr

/-- `IndexConfig`: the path of the directory to list. -/
structure IndexConfig where
  path : Path
  deriving DecidableEq, Repr

/-- `pulldown_cmark::CodeBlockKind`. -/
inductive CodeBlockKind where
  | fenced (lang : String)
  | indented
  deriving DecidableEq, Repr

/-- The `pulldown_cmark::Tag` variants the program distinguishes: code
blocks are matched on, every other tag flows through untouched (modeled
by representative constructors). -/
inductive Tag where
  | codeBlock (kind : CodeBlockKind)
  | paragraph
  | heading (level : Nat)
  | otherTag (name : String)
  deriving DecidableEq, Repr

/-- The `pulldown_cmark::Event` variants (`stop` stands for
`Event::End`; the untouched remainder of the variant space is modeled by
`softBreak`/`otherEvent`). -/
inductive Event where
  | start (tag : Tag)
  | stop (tag : Tag)
  | text (s : String)
  | html (s : String)
  | softBreak
  | otherEvent (name : String)
  deriving DecidableEq, Repr

/-- A fenced code block `Start` event. -/
def fenceStart (lang : String) : Event :=
  .start (.codeBlock (.fenced lang))

/-- A fenced code block `End` event. -/
def fenceStop (lang : String) : Event :=
  .stop (.codeBlock (.fenced lang))

/-- The mutable local state of `Website::process_md`'s event loop:
`cur_lang` is the active fence language, `template_info` the buffered
metadata source, `out` the `extended_md` vector of retained events. -/
structure MdState where
  cur_lang : Option String
  template_info : Option String
  out : List Event
  deriving DecidableEq, Repr

/-- The initial state of the event loop. -/
def initState : MdState := ⟨none, none, []⟩

/-- The `Website` struct: the shared site context.  The syntect theme,
syntax set and the emoji replacer are opaque collaborators, kept as the
data process_md consumes from them (a theme identifier, a
token-to-syntax lookup, a text transformer).  `handlers` is the
`HashMap<String, Box<dyn Handler>>`; a trait object's behavior is an
opaque fragment-producing function. -/
structure Website where
  theme : String
  syntax_set : String → Option String
  emoji_replacer : String → String
  config : Config
  header : String
  handlers : String → Option (String → PResult String)

/-- The fixed contracts of the external collaborators: filesystem,
markdown parser/serializer, toml deserializers, syntect, mime guessing,
base64, date formatting, and the behaviors of the three trait objects
registered by `Website::create`. -/
structure Env where
  readFile : Path → Except IOErr String
  parseMd : String → List Event
  renderHtml : List Event → String
  parseTemplateInfo : String → Except TomlErr TemplateInfo
  parseConfig : String → Except TomlErr Config
  parseHeaderConfig : String → Except TomlErr HeaderConfig
  parseIncludeConfig : String → Except TomlErr IncludeConfig
  parseIndexConfig : String → Except TomlErr IndexConfig
  loadSyntaxes : Except String (String → Option String)
  themes : String → Option String
  emojiReplace : String → String
  highlight : String → String → String → String
  mimeGuess : Path → Option String
  base64 : String → String
  formatDate : String → String
  readDir : Path → Except IOErr (List Path)
  createDirAll : Path → Except IOErr Unit
  writeFile : Path → String → Except IOErr Unit
  headerH : String → PResult String
  includeH : String → PResult String
  indexH : String → PResult String

/-- `str::starts_with`, as a prefix test on the character lists (the
core `String.startsWith` is defined by well-founded recursion and does
not evaluate inside the kernel). -/
def strStartsWith (s pre : String) : Bool := pre.data.isPrefixOf s.data

/-- Split a character list at a separator character (`str::split`). -/
def splitChars (sep : Char) : List Char → List (List Char)
  | [] => [[]]
  | c :: cs =>
    let r := splitChars sep cs
    if c == sep then [] :: r
    else
      match r with
      | [] => [[c]]
      | g :: gs => (c :: g) :: gs

/-- Split a string at a separator character. -/
def strSplit (sep : Char) (s : String) : List String :=
  (splitChars sep s.data).map String.mk

/-- Join character lists with a `.` separator. -/
def joinWithDot : List (List Char) → List Char
  | [] => []
  | [x] => x
  | x :: y :: xs => x ++ '.' :: joinWithDot (y :: xs)

/-- One step bound of `str::replace`: replace every non-overlapping
occurrence of `pat` in `s` by `rep`, with explicit fuel so that the
recursion is structural (for a non-empty pattern each step consumes at
least one character, so fuel `s.length` is always enough). -/
def replaceFuel (pat rep : List Char) : Nat → List Char → List Char
  | 0, s => s
  | fuel + 1, s =>
    match s with
    | [] => []
    | c :: cs =>
      if pat.isPrefixOf s then
        rep ++ replaceFuel pat rep fuel (s.drop pat.length)
      else c :: replaceFuel pat rep fuel cs

/-- `str::replace` (all occurrences, non-overlapping, left to right). -/
def strReplace (s pat rep : String) : String :=
  String.mk (replaceFuel pat.data rep.data s.data.length s.data)

/-- ASCII `to_lowercase` on one character. -/
def charToLower (c : Char) : Char :=
  if 'A' ≤ c ∧ c ≤ 'Z' then Char.ofNat (c.toNat + 32) else c

/-- ASCII lowercasing of a string. -/
def strToLower (s : String) : String := String.mk (s.data.map charToLower)

/-- `Path::strip_prefix`, on component lists. -/
def stripPrefixPath (base p : Path) : Option Path :=
  if base.isPrefixOf p then some (p.drop base.length) else none

/-- The stem of a file name: everything before the last `.` when the
name has an extension (dot-file corner cases do not arise for the
`.md`/`.html` names this program manipulates). -/
def stemOf (s : String) : String :=
  let parts := splitChars '.' s.data
  if parts.length ≤ 1 then s else String.mk (joinWithDot parts.dropLast)

/-- The extension of a file name, when it has one. -/
def extOf (s : String) : Option String :=
  let parts := strSplit '.' s
  if parts.length ≤ 1 then none else some parts.getLast!

/-- `PathBuf::with_extension("html")`: replace the final component's
extension with `.html`. -/
def withExtHtml : Path → Path
  | [] => []
  | [x] => [stemOf x ++ ".html"]
  | x :: y :: xs => x :: withExtHtml (y :: xs)

/-- Whether a path's extension is `md`, ASCII-case-insensitively
(`eq_ignore_ascii_case`). -/
def hasMdExt (p : Path) : Bool :=
  match p.getLast? with
  | none => false
  | some name =>
    match extOf name with
    | none => false
    | some e => strToLower e == "md"

/-- Interpret a Rust `String` used as a path (header icon entries) as a
component list. -/
def strToPath (s : String) : Path := strSplit '/' s

/-- `Website::read_to_base64`: join the path onto the content root, read
the bytes, base64-encode them. -/
def read_to_base64 (env : Env) (w : Website) (path : Path) : PResult String :=
  let p := w.config.content_path ++ path
  match env.readFile p with
  | .error e => .error (.ReadBase64Asset p e)
  | .ok image => .ok (env.base64 image)

/-- `Website::load_asset`: join the path onto the content root, read the
bytes, and wrap them in an inline `img` element whose media type comes
from `mime_guess::from_path(..).first_raw().unwrap()` — that `unwrap`
panics when no media type can be guessed. -/
def load_asset (env : Env) (w : Website) (path : Path) : PResult String :=
  let p := w.config.content_path ++ path
  match env.readFile p with
  | .error e => .error (.ReadBase64Asset p e)
  | .ok image =>
    match env.mimeGuess p with
    | none => .panic
    | some mime =>
      .ok ("<img src=\"data:" ++ mime ++ ";base64," ++ env.base64 image ++ "\" />")

/-- One iteration of the `'next_event` loop of `Website::process_md`:
fence starts set (and fence ends clear) the active language; reserved
fences (`templateinfo`, `cuddly_*`) are suppressed; text is
emoji-substituted and then, depending on the active language, buffered
as metadata, dispatched to a handler, syntax highlighted, or kept; all
other events pass through. -/
def processEvent (env : Env) (w : Website) (path : Path) (st : MdState)
    (ev : Event) : PResult MdState :=
  match ev with
  | .start (.codeBlock (.fenced lang)) =>
    let st := { st with cur_lang := some lang }
    if lang == "templateinfo" || strStartsWith lang "cuddly_" then .ok st
    else .ok { st with out := st.out ++ [ev] }
  | .stop (.codeBlock (.fenced lang)) =>
    let st := { st with cur_lang := none }
    if lang == "templateinfo" || strStartsWith lang "cuddly_" then .ok st
    else .ok { st with out := st.out ++ [ev] }
  | .text s =>
    let s := w.emoji_replacer s
    match st.cur_lang with
    | some lang =>
      if lang == "templateinfo" then
        .ok { st with template_info := some s }
      else if strStartsWith lang "cuddly_" then
        match w.handlers (lang.drop 7) with
        | none => .error (.MissingHandler path (lang.drop 7))
        | some h =>
          match h s with
          | .ok frag => .ok { st with out := st.out ++ [.html frag] }
          | .error e => .error e
          | .panic => .panic
      else
        match w.syntax_set lang with
        | some syn =>
          .ok { st with out := st.out ++ [.html (env.highlight s syn w.theme)] }
        | none => .ok { st with out := st.out ++ [.text s] }
    | none => .ok { st with out := st.out ++ [.text s] }
  | ev => .ok { st with out := st.out ++ [ev] }

/-- The `'next_event` loop of `Website::process_md`, from an arbitrary
state. -/
def processFrom (env : Env) (w : Website) (path : Path) :
    MdState → List Event → PResult MdState
  | st, [] => .ok st
  | st, ev :: evs =>
    match processEvent env w path st ev with
    | .ok st' => processFrom env w path st' evs
    | .error e => .error e
    | .panic => .panic

/-- The `'next_event` loop of `Website::process_md`, from the initial
state. -/
def processEvents (env : Env) (w : Website) (path : Path)
    (evs : List Event) : PResult MdState :=
  processFrom env w path initState evs

/-- The tail of `Website::process_md`: serialize the retained events,
require a buffered `templateinfo` source, parse it, and rebase the
`style` and `template` paths onto the content root (the source joins
only those two fields). -/
def finishMd (env : Env) (w : Website) (path : Path) (st : MdState) :
    PResult (String × TemplateInfo) :=
  let markdown_html := env.renderHtml st.out
  match st.template_info with
  | none => .error (.TemplateInfoMissing path)
  | some src =>
    match env.parseTemplateInfo src with
    | .error e => .error (.ParseTemplateInfo path e)
    | .ok ti =>
      .ok (markdown_html,
        { ti with
          style := w.config.content_path ++ ti.style,
          template := w.config.content_path ++ ti.template })

/-- `Website::process_md`: read the markdown source, run the event loop
over the parsed events, then `finishMd`. -/
def process_md (env : Env) (w : Website) (path : Path) :
    PResult (String × TemplateInfo) :=
  match env.readFile path with
  | .error e => .error (.ReadMarkdownInput path e)
  | .ok content =>
    match processFrom env w path initState (env.parseMd content) with
    | .error e => .error e
    | .panic => .panic
    | .ok st => finishMd env w path st

/-- `Website::process_file`: compute the mirrored output path, render
the markdown, create the output directory, read the style sheet,
template and favicon, substitute the placeholder markers, and write the
result.  The second component is the list of files written during the
call: every early-exit branch writes nothing. -/
def process_file (env : Env) (w : Website) (path : Path) :
    PResult (Path × TemplateInfo) × List (Path × String) :=
  match stripPrefixPath w.config.content_path path with
  | none => (.error (.StripPrefixError path), [])
  | some rel =>
    let output_path := withExtHtml (w.config.output_path ++ rel)
    match process_md env w path with
    | .error e => (.error e, [])
    | .panic => (.panic, [])
    | .ok (markdown_html, template_info) =>
      match output_path with
      | [] => (.panic, [])
      | _ :: _ =>
        let out_parent := output_path.dropLast
        match env.createDirAll out_parent with
        | .error e => (.error (.CreateOutputDir out_parent e), [])
        | .ok _ =>
          match env.readFile template_info.style with
          | .error e => (.error (.ReadStyle path template_info.style e), [])
          | .ok css =>
            match env.readFile template_info.template with
            | .error e =>
              (.error (.ReadTemplate path template_info.template e), [])
            | .ok htmlText =>
              match read_to_base64 env w template_info.favicon with
              | .error e => (.error e, [])
              | .panic => (.panic, [])
              | .ok favicon =>
                let h1 := strReplace htmlText "<<<PUT THE STYLESHEET HERE>>>" css
                let h2 := strReplace h1 "<<<PUT THE MAIN CONTENT HERE>>>" markdown_html
                let h3 := strReplace h2 "<<<PUT THE HEADER HERE>>>" w.header
                let h4 := strReplace h3 "<<<PUT THE FAVICON HERE>>>" favicon
                let h5 := strReplace h4 "<<<PUT THE TITLE HERE>>>" template_info.title
                let h6 := strReplace h5 "<<<PUT THE DESCRIPTION HERE>>>"
                  template_info.description
                match env.writeFile output_path h6 with
                | .error e => (.error (.WriteOutput output_path e), [])
                | .ok _ =>
                  (.ok (output_path, template_info), [(output_path, h6)])

/-- One of the two navigation loops of `Header::handle`, parameterized by
the opening `li` markup (the right-group loop floats its items).  Each
icon is resolved via `load_asset`; a `Result::Err` outcome falls back to
the raw label (`unwrap_or_else`), while a panic inside `load_asset`
propagates (Rust's `unwrap_or_else` does not catch panics). -/
def navItems (env : Env) (w : Website) (liOpen : String) :
    List (String × String) → PResult String
  | [] => .ok ""
  | (icon, href) :: rest =>
    match load_asset env w (strToPath icon) with
    | .panic => .panic
    | r =>
      let asset := match r with | .ok a => a | _ => icon
      match navItems env w liOpen rest with
      | .ok s =>
        .ok (liOpen ++ "<a href=\"" ++ href ++ "\">" ++ asset ++
          "</a></li>\n" ++ s)
      | .error e => .error e
      | .panic => .panic

/-- `Header::handle`: `toml::from_str(input).unwrap()` panics on a parse
failure; otherwise the two navigation groups are rendered inside a
`nav` element. -/
def headerHandle (env : Env) (w : Website) (input : String) :
    PResult String :=
  match env.parseHeaderConfig input with
  | .error _ => .panic
  | .ok config =>
    match navItems env w "<li>" config.left with
    | .error e => .error e
    | .panic => .panic
    | .ok l =>
      match navItems env w "<li style=\"float:right\">" config.right with
      | .error e => .error e
      | .panic => .panic
      | .ok r =>
        .ok ("<nav class=\"navbar\" role=\"navigation\"><ul>" ++ l ++ r ++
          "</nav>")

/-- `Include::handle`: `toml::from_str(input).unwrap()` panics on a parse
failure; otherwise the target document is rendered through `process_md`
and its body inlined. -/
def includeHandle (env : Env) (w : Website) (input : String) :
    PResult String :=
  match env.parseIncludeConfig input with
  | .error _ => .panic
  | .ok config =>
    match process_md env w (w.config.content_path ++ config.path) with
    | .ok r => .ok r.1
    | .error e => .error e
    | .panic => .panic

/-- One summary entry of `Index::handle`'s listing. -/
def indexEntry (env : Env) (ti : TemplateInfo) : String :=
  "\n                <article class=\"post-title\">\n" ++
  "                    <a href=\"/\" class=\"post-link\">" ++ ti.title ++
  "</a>\n                    <div class=\"flex-break\"></div>\n" ++
  "                    <span class=\"post-date\">" ++
  env.formatDate ti.time ++ "</span>\n                </article>\n            "

/-- The directory loop of `Index::handle`: skip entries without an `md`
extension, render each remaining document for its metadata, and emit a
summary entry per document. -/
def indexEntries (env : Env) (w : Website) : List Path → PResult String
  | [] => .ok ""
  | p :: rest =>
    if hasMdExt p then
      match process_md env w p with
      | .error e => .error e
      | .panic => .panic
      | .ok (_, ti) =>
        match indexEntries env w rest with
        | .ok s => .ok (indexEntry env ti ++ s)
        | .error e => .error e
        | .panic => .panic
    else indexEntries env w rest

/-- `Index::handle`: `toml::from_str(input).unwrap()` panics on a parse
failure; otherwise the configured directory (joined onto the content
root) is read and listed. -/
def indexHandle (env : Env) (w : Website) (input : String) :
    PResult String :=
  match env.parseIndexConfig input with
  | .error _ => .panic
  | .ok config =>
    let path := w.config.content_path ++ config.path
    match env.readDir path with
    | .error e => .error (.ReadDirectory path e)
    | .ok entries =>
      match indexEntries env w entries with
      | .error e => .error e
      | .panic => .panic
      | .ok body =>
        .ok ("<div class=\"container list-posts\">" ++
          "<h1 class=\"list-title\">Blogs</h1>" ++
          "<h2 class=\"posts-year\">2021</h2>" ++ body ++ "</div>")

/-- The first phase of `Website::create`: read and parse the config,
load the syntaxes (`Error::LoadSyntax` on failure), look up the theme
(`.unwrap()` panics when the theme is unknown), assemble the `Website`
with an empty `header` and the three registered handlers, process the
header document with it, and rebuild the context with the rendered
header (`Arc::try_unwrap` + field write).  Both context values are
returned: the one the header document was processed with, and the one
every later document sees. -/
def createWebsites (env : Env) (config_toml : Path) :
    PResult (Website × Website) :=
  match env.readFile config_toml with
  | .error e => .error (.ConfigRead config_toml e)
  | .ok ctext =>
    match env.parseConfig ctext with
    | .error e => .error (.ConfigParse config_toml e)
    | .ok config =>
      match env.loadSyntaxes with
      | .error e => .error (.LoadSyntaxError e)
      | .ok syntax_fn =>
        match env.themes config.syntax_theme with
        | none => .panic
        | some theme =>
          let w1 : Website :=
            { theme := theme
              syntax_set := syntax_fn
              emoji_replacer := env.emojiReplace
              config := config
              header := ""
              handlers := fun n =>
                if n == "header" then some env.headerH
                else if n == "include" then some env.includeH
                else if n == "index" then some env.indexH
                else none }
          match process_md env w1 (config.content_path ++ config.header_file) with
          | .error e => .error e
          | .panic => .panic
          | .ok h => .ok (w1, { w1 with header := h.1 })

/-- `Website::create`: build the context, then process the base
document.  The second component records the per-directory "needs index"
reports the orchestrator emits after the per-document work: the source
contains no grouping of build results and no such report (its only
console output is the elapsed-time print; `process_file`'s build result
is discarded), so every branch yields the empty list. -/
def create (env : Env) (config_toml : Path) : PResult Unit × List Path :=
  match createWebsites env config_toml with
  | .error e => (.error e, [])
  | .panic => (.panic, [])
  | .ok (_, website) =>
    match (process_file env website
        (website.config.content_path ++ website.config.base_file)).1 with
    | .error e => (.error e, [])
    | .panic => (.panic, [])
    | .ok _ => (.ok (), [])

/-- Whether an event is the start or end of a reserved fenced block
(`templateinfo` or a `cuddly_*` handler block). -/
def reservedFence : Event → Bool
  | .start (.codeBlock (.fenced lang)) =>
    lang == "templateinfo" || strStartsWith lang "cuddly_"
  | .stop (.codeBlock (.fenced lang)) =>
    lang == "templateinfo" || strStartsWith lang "cuddly_"
  | _ => false

/-- The metadata source left in the buffer after a run of `templateinfo`
text events: each event overwrites the buffer with its (emoji-replaced)
text, so the last one wins and an empty run leaves the previous value. -/
def lastBuf (w : Website) : List String → Option String → Option String
  | [], d => d
  | t :: rest, _ => lastBuf w rest (some (w.emoji_replacer t))

/-- Projection extracting the `header` fields of the two context values
produced by `createWebsites`. -/
def websitesHeaderPair (r : PResult (Website × Website)) :
    Option (String × String) :=
  match r with
  | .ok (w1, w2) => some (w1.header, w2.header)
  | _ => none

/-- A concrete instantiation of the external collaborators used to
evaluate the embedded program on concrete inputs. -/
def baseEnv : Env where
  readFile := fun _ => .ok ""
  parseMd := fun _ => []
  renderHtml := fun _ => ""
  parseTemplateInfo := fun _ => .error "no"
  parseConfig := fun _ => .error "no"
  parseHeaderConfig := fun _ => .error "no"
  parseIncludeConfig := fun _ => .error "no"
  parseIndexConfig := fun _ => .error "no"
  loadSyntaxes := .ok (fun _ => none)
  themes := fun _ => none
  emojiReplace := fun s => s
  highlight := fun s _ _ => s
  mimeGuess := fun _ => none
  base64 := fun s => s
  formatDate := fun s => s
  readDir := fun _ => .ok []
  createDirAll := fun _ => .ok ()
  writeFile := fun _ _ => .ok ()
  headerH := fun _ => .ok ""
  includeH := fun _ => .ok ""
  indexH := fun _ => .ok ""

/-- A concrete site context for concrete evaluations. -/
def baseWebsite : Website where
  theme := "base16"
  syntax_set := fun _ => none
  emoji_replacer := fun s => s
  config :=
    { syntax_theme := "base16"
      content_path := ["content"]
      output_path := ["out"]
      base_file := ["index.md"]
      header_file := ["header.md"] }
  header := ""
  handlers := fun _ => none

/-- The handler registry `Website::create` populates, with opaque
handler behaviors, for concrete evaluations. -/
def builtinHandlers : String → Option (String → PResult String) :=
  fun n =>
    if n == "header" then some (fun _ => .ok "")
    else if n == "include" then some (fun _ => .ok "")
    else if n == "index" then some (fun _ => .ok "")
    else none

/-- A concrete `TemplateInfo` as a toml deserializer would return it:
all three path fields are document-relative. -/
def demoTemplateInfo : TemplateInfo where
  style := ["s.css"]
  template := ["t.html"]
  favicon := ["f.ico"]
  time := "2021-01-01"
  title := "Title"
  description := "Desc"

/-- Collaborators for a document whose metadata block holds two
text-run events; the toml parser accepts only the second run's text, so
a successful parse identifies which source string was handed to it. -/
def c1env : Env :=
  { baseEnv with
    parseMd := fun _ =>
      [fenceStart "templateinfo", Event.text "aa", Event.text "bb",
        fenceStop "templateinfo"]
    parseTemplateInfo := fun s =>
      if s == "bb" then .ok demoTemplateInfo else .error "not the last run" }

/-- Collaborators for a complete successful build of one site: every
file reads as `"raw"`, every markdown document consists of one metadata
block, and the rendered page lands at `out/blog/a.html`. -/
def c2env : Env :=
  { baseEnv with
    readFile := fun _ => .ok "raw"
    parseConfig := fun _ =>
      .ok
        { syntax_theme := "th"
          content_path := ["content"]
          output_path := ["out"]
          base_file := ["blog", "a.md"]
          header_file := ["hdr.md"] }
    parseMd := fun _ =>
      [fenceStart "templateinfo", Event.text "meta", fenceStop "templateinfo"]
    parseTemplateInfo := fun _ => .ok demoTemplateInfo
    themes := fun _ => some "T" }

/-- The site context `Website::create` builds from `c2env` (empty
header, the three registered handlers). -/
def c2site : Website where
  theme := "T"
  syntax_set := fun _ => none
  emoji_replacer := c2env.emojiReplace
  config :=
    { syntax_theme := "th"
      content_path := ["content"]
      output_path := ["out"]
      base_file := ["blog", "a.md"]
      header_file := ["hdr.md"] }
  header := ""
  handlers := fun n =>
    if n == "header" then some c2env.headerH
    else if n == "include" then some c2env.includeH
    else if n == "index" then some c2env.indexH
    else none

/-- Collaborators for one document holding a single metadata text-run. -/
def c3env : Env :=
  { baseEnv with
    parseMd := fun _ =>
      [fenceStart "templateinfo", Event.text "m", fenceStop "templateinfo"]
    parseTemplateInfo := fun _ => .ok demoTemplateInfo }

/-- The `c2env` collaborators with an HTML serializer that renders every
document body — in particular the header document's — to `"HDR"`. -/
def c4env : Env :=
  { c2env with renderHtml := fun _ => "HDR" }

/-- Collaborators for a document whose metadata block holds no text-run
event. -/
def c6env : Env :=
  { baseEnv with
    parseMd := fun _ => [fenceStart "templateinfo", fenceStop "templateinfo"] }

/-- Collaborators for a document whose only fenced block names the
unregistered handler `bogus` through the `cuddly_` namespace. -/
def c7env : Env :=
  { baseEnv with
    parseMd := fun _ => [fenceStart "cuddly_bogus", Event.text "cfg"] }

/-- A site context carrying the built-in handler registry. -/
def c7website : Website :=
  { baseWebsite with handlers := builtinHandlers }

/-- Collaborators under which every asset read fails and the header
directive parses into one left entry and one right entry. -/
def c9env : Env :=
  { baseEnv with
    readFile := fun _ => .error "nofile"
    parseHeaderConfig := fun _ =>
      .ok { left := [("icon.png", "/")], right := [("X", "/y")] } }

/-- The first context value `createWebsites c4env` produces: the site as
the header document sees it, with an empty header. -/
def c4w1 : Website where
  theme := "T"
  syntax_set := fun _ => none
  emoji_replacer := c4env.emojiReplace
  config :=
    { syntax_theme := "th"
      content_path := ["content"]
      output_path := ["out"]
      base_file := ["blog", "a.md"]
      header_file := ["hdr.md"] }
  header := ""
  handlers := fun n =>
    if n == "header" then some c4env.headerH
    else if n == "include" then some c4env.includeH
    else if n == "index" then some c4env.indexH
    else none

/-- The second context value `createWebsites c4env` produces: the site as
the base document sees it, with the rendered header installed. -/
def c4w2 : Website := { c4w1 with header := "HDR" }

/-! Helper lemmas about the event loop. -/

/-- The event loop over a concatenation runs the first part and, when it
succeeds, continues from its final state. -/
theorem processFrom_append (env : Env) (w : Website) (path : Path)
    (a : List Event) :
    ∀ (st : MdState) (b : List Event),
      processFrom env w path st (a ++ b) =
        match processFrom env w path st a with
        | .ok st' => processFrom env w path st' b
        | .error e => .error e
        | .panic => .panic := by
  induction a with
  | nil => intro st b; simp [processFrom]
  | cons ev evs ih =>
    intro st b
    simp only [List.cons_append, processFrom]
    cases processEvent env w path st ev with
    | ok st' => exact ih st' b
    | error e => rfl
    | panic => rfl

/-- A run of text events under an active `templateinfo` fence leaves the
language and retained output untouched and rewrites the metadata buffer
to the last run's emoji-substituted text (each event overwrites it). -/
theorem processFrom_ti_texts (env : Env) (w : Website) (path : Path)
    (ts : List String) :
    ∀ (st : MdState), st.cur_lang = some "templateinfo" →
      processFrom env w path st (ts.map Event.text) =
        .ok ⟨st.cur_lang, lastBuf w ts st.template_info, st.out⟩ := by
  induction ts with
  | nil => intro st _; simp [processFrom, lastBuf]
  | cons t rest ih =>
    intro st h
    simp only [List.map_cons, processFrom, processEvent, h]
    rw [if_pos (by simp)]
    exact ih _ rfl

/-- Processing an entire `templateinfo` directive block from any state
suppresses every one of its events (the output is unchanged), clears the
active language, and leaves the metadata buffer holding the last
text-run's emoji-substituted text. -/
theorem processFrom_ti_block (env : Env) (w : Website) (path : Path)
    (ts : List String) (st : MdState) :
    processFrom env w path st
      (fenceStart "templateinfo" ::
        (ts.map Event.text ++ [fenceStop "templateinfo"])) =
      .ok ⟨none, lastBuf w ts st.template_info, st.out⟩ := by
  have h1 : processEvent env w path st (fenceStart "templateinfo") =
      .ok ⟨some "templateinfo", st.template_info, st.out⟩ := by
    simp [processEvent, fenceStart]
  have h2 : ∀ st2 : MdState,
      processEvent env w path st2 (fenceStop "templateinfo") =
        .ok ⟨none, st2.template_info, st2.out⟩ := by
    intro st2
    simp [processEvent, fenceStop]
  simp only [processFrom, h1]
  rw [processFrom_append]
  rw [processFrom_ti_texts env w path ts
    ⟨some "templateinfo", st.template_info, st.out⟩ rfl]
  simp only [processFrom, h2]

/-- When a list of text runs is non-empty, the metadata buffer it leaves
behind is exactly the last run's emoji-substituted text. -/
theorem lastBuf_getLast (w : Website) (ts : List String) :
    ∀ (d : Option String) (tlast : String), ts.getLast? = some tlast →
      lastBuf w ts d = some (w.emoji_replacer tlast) := by
  induction ts with
  | nil => intro d tlast h; simp at h
  | cons t rest ih =>
    intro d tlast h
    cases rest with
    | nil =>
      simp at h
      subst h
      rfl
    | cons t2 r2 =>
      rw [List.getLast?_cons_cons] at h
      show lastBuf w (t2 :: r2) (some (w.emoji_replacer t)) =
        some (w.emoji_replacer tlast)
      exact ih _ _ h

/-- A single loop iteration outside a `templateinfo` fence and not
entering one keeps the metadata buffer and stays outside the fence. -/
theorem processEvent_ti_stable (env : Env) (w : Website) (path : Path)
    (st st1 : MdState) (ev : Event)
    (hne : ev ≠ fenceStart "templateinfo")
    (hcur : st.cur_lang ≠ some "templateinfo")
    (h : processEvent env w path st ev = .ok st1) :
    st1.template_info = st.template_info ∧
      st1.cur_lang ≠ some "templateinfo" := by
  cases ev with
  | start tag =>
    cases tag with
    | codeBlock kind =>
      cases kind with
      | fenced lang =>
        have hl : lang ≠ "templateinfo" := by
          intro heq
          exact hne (by rw [heq]; rfl)
        simp only [processEvent] at h
        split at h <;>
          (cases h; exact ⟨rfl, by simpa using hl⟩)
      | indented =>
        simp only [processEvent] at h
        cases h
        exact ⟨rfl, hcur⟩
    | paragraph =>
      simp only [processEvent] at h
      cases h
      exact ⟨rfl, hcur⟩
    | heading level =>
      simp only [processEvent] at h
      cases h
      exact ⟨rfl, hcur⟩
    | otherTag name =>
      simp only [processEvent] at h
      cases h
      exact ⟨rfl, hcur⟩
  | stop tag =>
    cases tag with
    | codeBlock kind =>
      cases kind with
      | fenced lang =>
        simp only [processEvent] at h
        split at h <;> (cases h; exact ⟨rfl, by simp⟩)
      | indented =>
        simp only [processEvent] at h
        cases h
        exact ⟨rfl, hcur⟩
    | paragraph =>
      simp only [processEvent] at h
      cases h
      exact ⟨rfl, hcur⟩
    | heading level =>
      simp only [processEvent] at h
      cases h
      exact ⟨rfl, hcur⟩
    | otherTag name =>
      simp only [processEvent] at h
      cases h
      exact ⟨rfl, hcur⟩
  | text s =>
    cases hc : st.cur_lang with
    | none =>
      simp only [processEvent, hc] at h
      cases h
      exact ⟨rfl, by simp⟩
    | some lang =>
      have hl : lang ≠ "templateinfo" := by
        intro heq; rw [hc, heq] at hcur; exact hcur rfl
      simp only [processEvent, hc] at h
      rw [if_neg (by simpa using hl)] at h
      split at h
      · split at h
        · cases h
        · split at h <;> first
            | (cases h; exact ⟨rfl, by simpa [hc] using hcur⟩)
            | cases h
      · split at h <;>
          (cases h; exact ⟨rfl, by simpa [hc] using hcur⟩)
  | html s =>
    simp only [processEvent] at h
    cases h
    exact ⟨rfl, hcur⟩
  | softBreak =>
    simp only [processEvent] at h
    cases h
    exact ⟨rfl, hcur⟩
  | otherEvent name =>
    simp only [processEvent] at h
    cases h
    exact ⟨rfl, hcur⟩

/-- Over any event list that never opens a `templateinfo` fence, starting
outside such a fence, the metadata buffer is unchanged. -/
theorem processFrom_ti_stable (env : Env) (w : Website) (path : Path)
    (evs : List Event) :
    ∀ (st st' : MdState), fenceStart "templateinfo" ∉ evs →
      st.cur_lang ≠ some "templateinfo" →
      processFrom env w path st evs = .ok st' →
      st'.template_info = st.template_info := by
  induction evs with
  | nil =>
    intro st st' _ _ h
    simp only [processFrom] at h
    cases h
    rfl
  | cons ev evs ih =>
    intro st st' hmem hcur h
    simp only [processFrom] at h
    cases hpe : processEvent env w path st ev with
    | ok st1 =>
      rw [hpe] at h
      obtain ⟨h1, h2⟩ := processEvent_ti_stable env w path st st1 ev
        (fun he => hmem (he ▸ List.mem_cons_self ev evs)) hcur hpe
      rw [ih st1 st' (fun hm => hmem (List.mem_cons_of_mem _ hm)) h2 h, h1]
    | error e => rw [hpe] at h; cases h
    | panic => rw [hpe] at h; cases h

/-- Running the loop over `a ++ b` when `a` succeeds continues over `b`
from `a`'s final state. -/
theorem processFrom_append_ok (env : Env) (w : Website) (path : Path)
    (a b : List Event) (st st' : MdState)
    (h : processFrom env w path st a = .ok st') :
    processFrom env w path st (a ++ b) = processFrom env w path st' b := by
  rw [processFrom_append, h]

/-- Running the loop over `a ++ b` when `a` fails propagates the error. -/
theorem processFrom_append_error (env : Env) (w : Website) (path : Path)
    (a b : List Event) (st : MdState) (e : Error)
    (h : processFrom env w path st a = .error e) :
    processFrom env w path st (a ++ b) = .error e := by
  rw [processFrom_append, h]

/-- Running the loop over `a ++ b` when `a` panics propagates the panic. -/
theorem processFrom_append_panic (env : Env) (w : Website) (path : Path)
    (a b : List Event) (st : MdState)
    (h : processFrom env w path st a = .panic) :
    processFrom env w path st (a ++ b) = .panic := by
  rw [processFrom_append, h]

/-- A single successful loop iteration only ever appends events that are
not reserved fence markers to the retained output. -/
theorem processEvent_out_reserved (env : Env) (w : Website) (path : Path)
    (st st1 : MdState) (ev : Event)
    (h : processEvent env w path st ev = .ok st1) :
    ∀ e ∈ st1.out, e ∈ st.out ∨ reservedFence e = false := by
  cases ev with
  | start tag =>
    cases tag with
    | codeBlock kind =>
      cases kind with
      | fenced lang =>
        simp only [processEvent] at h
        split at h
        · cases h
          intro e he
          exact .inl he
        · rename_i hcond
          cases h
          intro e he
          rcases List.mem_append.mp he with h1 | h2
          · exact .inl h1
          · rw [List.mem_singleton.mp h2]
            exact .inr (by simpa [reservedFence] using hcond)
      | indented =>
        simp only [processEvent] at h
        cases h
        intro e he
        rcases List.mem_append.mp he with h1 | h2
        · exact .inl h1
        · rw [List.mem_singleton.mp h2]; exact .inr rfl
    | paragraph =>
      simp only [processEvent] at h
      cases h
      intro e he
      rcases List.mem_append.mp he with h1 | h2
      · exact .inl h1
      · rw [List.mem_singleton.mp h2]; exact .inr rfl
    | heading level =>
      simp only [processEvent] at h
      cases h
      intro e he
      rcases List.mem_append.mp he with h1 | h2
      · exact .inl h1
      · rw [List.mem_singleton.mp h2]; exact .inr rfl
    | otherTag name =>
      simp only [processEvent] at h
      cases h
      intro e he
      rcases List.mem_append.mp he with h1 | h2
      · exact .inl h1
      · rw [List.mem_singleton.mp h2]; exact .inr rfl
  | stop tag =>
    cases tag with
    | codeBlock kind =>
      cases kind with
      | fenced lang =>
        simp only [processEvent] at h
        split at h
        · cases h
          intro e he
          exact .inl he
        · rename_i hcond
          cases h
          intro e he
          rcases List.mem_append.mp he with h1 | h2
          · exact .inl h1
          · rw [List.mem_singleton.mp h2]
            exact .inr (by simpa [reservedFence] using hcond)
      | indented =>
        simp only [processEvent] at h
        cases h
        intro e he
        rcases List.mem_append.mp he with h1 | h2
        · exact .inl h1
        · rw [List.mem_singleton.mp h2]; exact .inr rfl
    | paragraph =>
      simp only [processEvent] at h
      cases h
      intro e he
      rcases List.mem_append.mp he with h1 | h2
      · exact .inl h1
      · rw [List.mem_singleton.mp h2]; exact .inr rfl
    | heading level =>
      simp only [processEvent] at h
      cases h
      intro e he
      rcases List.mem_append.mp he with h1 | h2
      · exact .inl h1
      · rw [List.mem_singleton.mp h2]; exact .inr rfl
    | otherTag name =>
      simp only [processEvent] at h
      cases h
      intro e he
      rcases List.mem_append.mp he with h1 | h2
      · exact .inl h1
      · rw [List.mem_singleton.mp h2]; exact .inr rfl
  | text s =>
    cases hc : st.cur_lang with
    | none =>
      simp only [processEvent, hc] at h
      cases h
      intro e he
      rcases List.mem_append.mp he with h1 | h2
      · exact .inl h1
      · rw [List.mem_singleton.mp h2]; exact .inr rfl
    | some lang =>
      simp only [processEvent, hc] at h
      split at h
      · cases h
        intro e he
        exact .inl he
      · split at h
        · split at h
          · cases h
          · split at h
            · cases h
              intro e he
              rcases List.mem_append.mp he with h1 | h2
              · exact .inl h1
              · rw [List.mem_singleton.mp h2]; exact .inr rfl
            · cases h
            · cases h
        · split at h <;> cases h <;> intro e he <;>
            rcases List.mem_append.mp he with h1 | h2
          · exact .inl h1
          · rw [List.mem_singleton.mp h2]; exact .inr rfl
          · exact .inl h1
          · rw [List.mem_singleton.mp h2]; exact .inr rfl
  | html s =>
    simp only [processEvent] at h
    cases h
    intro e he
    rcases List.mem_append.mp he with h1 | h2
    · exact .inl h1
    · rw [List.mem_singleton.mp h2]; exact .inr rfl
  | softBreak =>
    simp only [processEvent] at h
    cases h
    intro e he
    rcases List.mem_append.mp he with h1 | h2
    · exact .inl h1
    · rw [List.mem_singleton.mp h2]; exact .inr rfl
  | otherEvent name =>
    simp only [processEvent] at h
    cases h
    intro e he
    rcases List.mem_append.mp he with h1 | h2
    · exact .inl h1
    · rw [List.mem_singleton.mp h2]; exact .inr rfl

/-- Over any event list, every event the loop retains was already
retained before or is not a reserved fence marker. -/
theorem processFrom_out_reserved (env : Env) (w : Website) (path : Path)
    (evs : List Event) :
    ∀ (st st' : MdState), processFrom env w path st evs = .ok st' →
      ∀ e ∈ st'.out, e ∈ st.out ∨ reservedFence e = false := by
  induction evs with
  | nil =>
    intro st st' h e he
    simp only [processFrom] at h
    cases h
    exact .inl he
  | cons ev evs ih =>
    intro st st' h e he
    simp only [processFrom] at h
    cases hpe : processEvent env w path st ev with
    | ok st1 =>
      rw [hpe] at h
      rcases ih st1 st' h e he with h1 | h2
      · exact processEvent_out_reserved env w path st st1 ev hpe e h1
      · exact .inr h2
    | error e2 => rw [hpe] at h; cases h
    | panic => rw [hpe] at h; cases h

/-- Every navigation group whose icons never make `load_asset` panic is
rendered successfully (a failed asset load falls back to the label). -/
theorem navItems_isOk (env : Env) (w : Website) (liOpen : String)
    (items : List (String × String))
    (hnp : ∀ pr ∈ items, load_asset env w (strToPath pr.1) ≠ .panic) :
    (navItems env w liOpen items).isOk = true := by
  induction items with
  | nil => rfl
  | cons pr rest ih =>
    obtain ⟨icon, href⟩ := pr
    have hh : load_asset env w (strToPath icon) ≠ .panic :=
      hnp (icon, href) (List.mem_cons_self _ _)
    have hr : (navItems env w liOpen rest).isOk = true :=
      ih (fun q hq => hnp q (List.mem_cons_of_mem _ hq))
    cases hla : load_asset env w (strToPath icon) with
    | panic => exact absurd hla hh
    | ok a =>
      cases hrest : navItems env w liOpen rest with
      | ok s => simp [navItems, hla, hrest, PResult.isOk]
      | error e => rw [hrest] at hr; simp [PResult.isOk] at hr
      | panic => rw [hrest] at hr; simp [PResult.isOk] at hr
    | error e =>
      cases hrest : navItems env w liOpen rest with
      | ok s => simp [navItems, hla, hrest, PResult.isOk]
      | error e2 => rw [hrest] at hr; simp [PResult.isOk] at hr
      | panic => rw [hrest] at hr; simp [PResult.isOk] at hr

/-- C10: `Website::load_asset` panics — it does not return the typed
`ReadBase64Asset` error or any other error value — whenever the file at
the content-root-joined path is readable but no media type can be
guessed from it, and conversely a successful return guarantees that a
media type was guessable. -/
theorem load_asset_panics_without_mime :
    (∀ (env : Env) (w : Website) (p : Path) (data : String),
      env.readFile (w.config.content_path ++ p) = .ok data →
      env.mimeGuess (w.config.content_path ++ p) = none →
      load_asset env w p = .panic) ∧
    (∀ (env : Env) (w : Website) (p : Path) (s : String),
      load_asset env w p = .ok s →
      env.mimeGuess (w.config.content_path ++ p) ≠ none) := by
  constructor
  · intro env w p data hr hm
    simp only [load_asset, hr, hm]
  · intro env w p s h hm
    simp only [load_asset, hm] at h
    cases hr : env.readFile (w.config.content_path ++ p) with
    | error e => rw [hr] at h; cases h
    | ok data => rw [hr] at h; cases h

/-- Witness for the C10 theorem: under `baseEnv` the asset file reads
successfully and no media type is guessable, so `load_asset` panics. -/
theorem load_asset_panics_without_mime_witness :
    load_asset baseEnv baseWebsite ["pic"] = .panic :=
  load_asset_panics_without_mime.1 baseEnv baseWebsite ["pic"] "" rfl rfl

/-- C5 counterexample: with a handler body that fails to parse as the
handler's configuration format, each of the three built-in handlers
evaluates to a panic (an aborted task), not to an error value. -/
theorem handler_config_error_counterexample :
    headerHandle baseEnv baseWebsite "garbage" = .panic ∧
    includeHandle baseEnv baseWebsite "garbage" = .panic ∧
    indexHandle baseEnv baseWebsite "garbage" = .panic :=
  ⟨rfl, rfl, rfl⟩

/-- C5 (amended): for every handler directive block whose body text
fails to parse as that handler's configuration format, the handler
panics (`toml::from_str(input).unwrap()`), aborting its task, instead of
returning a typed configuration error value. -/
theorem handler_config_parse_panics :
    (∀ (env : Env) (w : Website) (input : String) (e : TomlErr),
      env.parseHeaderConfig input = .error e →
      headerHandle env w input = .panic) ∧
    (∀ (env : Env) (w : Website) (input : String) (e : TomlErr),
      env.parseIncludeConfig input = .error e →
      includeHandle env w input = .panic) ∧
    (∀ (env : Env) (w : Website) (input : String) (e : TomlErr),
      env.parseIndexConfig input = .error e →
      indexHandle env w input = .panic) := by
  refine ⟨?_, ?_, ?_⟩
  · intro env w input e h
    simp [headerHandle, h]
  · intro env w input e h
    simp [includeHandle, h]
  · intro env w input e h
    simp [indexHandle, h]

/-- Witness for the amended C5 theorem at a concrete unparseable body. -/
theorem handler_config_parse_panics_witness :
    headerHandle baseEnv baseWebsite "zz" = .panic :=
  handler_config_parse_panics.1 baseEnv baseWebsite "zz" "no" rfl

/-- C2 counterexample: a complete successful build under `c2env` renders
the page `out/blog/a.html` — a directory with a rendered page whose name
is not `index.html` — yet `Website::create` emits zero "needs index"
reports, where the claim requires exactly one for that directory. -/
theorem needs_index_report_counterexample :
    create c2env ["site.toml"] = (.ok (), ([] : List Path)) ∧
    (create c2env ["site.toml"]).2.length ≠ 1 ∧
    (process_file c2env c2site ["content", "blog", "a.md"]).2 =
      [(["out", "blog", "a.html"], "raw")] ∧
    (["out", "blog", "a.html"] : Path).getLast? = some "a.html" ∧
    "a.html" ≠ "index.html" :=
  ⟨by decide, by decide, by decide, by decide, by decide⟩

/-- C2 (amended): after all per-document work completes,
`Website::create` performs no grouping of build results by parent
directory and emits no "needs index" report for any directory: on every
input and every outcome the list of such reports is empty (the build
result of `process_file` is discarded and the only console output is the
elapsed-time print). -/
theorem create_emits_no_needs_index_reports (env : Env) (p : Path) :
    (create env p).2 = [] := by
  cases h : createWebsites env p with
  | error e => simp [create, h]
  | panic => simp [create, h]
  | ok ws =>
    obtain ⟨w1, w2⟩ := ws
    cases h2 : (process_file env w2
        (w2.config.content_path ++ w2.config.base_file)).1 with
    | ok r => simp [create, h, h2]
    | error e => simp [create, h, h2]
    | panic => simp [create, h, h2]

/-- C9: when the header directive's configuration parses and no icon
makes `load_asset` panic, the header render as a whole succeeds, and any
entry whose icon asset fails to load is emitted with the raw label text
in place of the embedded image — an asset load failure never aborts the
navigation render. -/
theorem header_icon_soft_fail
    (env : Env) (w : Website) (input : String) (cfg : HeaderConfig)
    (hp : env.parseHeaderConfig input = .ok cfg)
    (hnp : ∀ pr ∈ cfg.left ++ cfg.right,
      load_asset env w (strToPath pr.1) ≠ .panic) :
    (headerHandle env w input).isOk = true ∧
    (∀ (icon href : String) (rest : List (String × String)) (e : Error)
        (s liOpen : String),
      load_asset env w (strToPath icon) = .error e →
      navItems env w liOpen rest = .ok s →
      navItems env w liOpen ((icon, href) :: rest) =
        .ok (liOpen ++ "<a href=\"" ++ href ++ "\">" ++ icon ++
          "</a></li>\n" ++ s)) := by
  constructor
  · have hl := navItems_isOk env w "<li>" cfg.left
      (fun q hq => hnp q (List.mem_append.mpr (.inl hq)))
    have hr := navItems_isOk env w "<li style=\"float:right\">" cfg.right
      (fun q hq => hnp q (List.mem_append.mpr (.inr hq)))
    cases hla : navItems env w "<li>" cfg.left with
    | ok l =>
      cases hra : navItems env w "<li style=\"float:right\">" cfg.right with
      | ok r => simp [headerHandle, hp, hla, hra, PResult.isOk]
      | error e => rw [hra] at hr; simp [PResult.isOk] at hr
      | panic => rw [hra] at hr; simp [PResult.isOk] at hr
    | error e => rw [hla] at hl; simp [PResult.isOk] at hl
    | panic => rw [hla] at hl; simp [PResult.isOk] at hl
  · intro icon href rest e s liOpen hla hrest
    simp [navItems, hla, hrest]

/-- Witness for the C9 theorem: with every asset read failing, the
header still renders and the left entry uses the raw label
`icon.png`. -/
theorem header_icon_soft_fail_witness :
    (headerHandle c9env baseWebsite "i").isOk = true ∧
    navItems c9env baseWebsite "<li>" [("icon.png", "/")] =
      .ok "<li><a href=\"/\">icon.png</a></li>\n" :=
  ⟨(header_icon_soft_fail c9env baseWebsite "i"
      ⟨[("icon.png", "/")], [("X", "/y")]⟩ rfl (by decide)).1,
    (header_icon_soft_fail c9env baseWebsite "i"
      ⟨[("icon.png", "/")], [("X", "/y")]⟩ rfl (by decide)).2 "icon.png" "/"
      [] (.ReadBase64Asset ["content", "icon.png"] "nofile") "" "<li>"
      (by decide) rfl⟩

/-- C6: for every document whose event loop finishes with an empty
metadata buffer — which covers documents with no metadata block and
documents whose metadata block holds no text-run event — `process_md`
fails with the structural `TemplateInfoMissing` error carrying the
document path, and `process_file` writes no output file. -/
theorem missing_template_info_fails_without_output
    (env : Env) (w : Website) (path : Path) (content : String)
    (st : MdState)
    (hread : env.readFile path = .ok content)
    (hrun : processFrom env w path initState (env.parseMd content) = .ok st)
    (hnone : st.template_info = none) :
    process_md env w path = .error (.TemplateInfoMissing path) ∧
    (process_file env w path).2 = [] := by
  have hmd : process_md env w path = .error (.TemplateInfoMissing path) := by
    simp only [process_md, hread, hrun, finishMd, hnone]
  refine ⟨hmd, ?_⟩
  cases hsp : stripPrefixPath w.config.content_path path with
  | none => simp [process_file, hsp]
  | some rel => simp [process_file, hsp, hmd]

/-- Witness for the C6 theorem: a document whose metadata block holds no
text-run event behaves exactly like one with no metadata block. -/
theorem missing_template_info_fails_without_output_witness :
    process_md c6env baseWebsite ["d.md"] =
      .error (.TemplateInfoMissing ["d.md"]) ∧
    (process_file c6env baseWebsite ["d.md"]).2 = [] :=
  missing_template_info_fails_without_output c6env baseWebsite ["d.md"] ""
    ⟨none, none, []⟩ rfl (by decide) rfl

/-- C7: a text-run inside a fenced block whose language begins with the
reserved `cuddly_` prefix but whose prefix-stripped name is not in the
handler registry makes processing fail with a `MissingHandler` error
carrying exactly that stripped name and the document path, and the
document produces no output file. -/
theorem missing_handler_error
    (env : Env) (w : Website) (path : Path) (content : String)
    (pre rest : List Event) (lang s : String) (st : MdState)
    (hread : env.readFile path = .ok content)
    (hparse : env.parseMd content =
      pre ++ (fenceStart lang :: Event.text s :: rest))
    (hcud : strStartsWith lang "cuddly_" = true)
    (hmiss : w.handlers (lang.drop 7) = none)
    (hpre : processFrom env w path initState pre = .ok st) :
    process_md env w path = .error (.MissingHandler path (lang.drop 7)) ∧
    (process_file env w path).2 = [] := by
  have h1 : processEvent env w path st (fenceStart lang) =
      .ok ⟨some lang, st.template_info, st.out⟩ := by
    simp [processEvent, fenceStart, hcud]
  have h2 : processEvent env w path ⟨some lang, st.template_info, st.out⟩
      (Event.text s) = .error (.MissingHandler path (lang.drop 7)) := by
    have hlne : lang ≠ "templateinfo" := by
      intro he
      rw [he] at hcud
      exact absurd hcud (by decide)
    have hl : (lang == "templateinfo") = false := beq_eq_false_iff_ne.mpr hlne
    simp [processEvent, hl, hcud, hmiss]
  have hy : processFrom env w path st
      (fenceStart lang :: Event.text s :: rest) =
      .error (.MissingHandler path (lang.drop 7)) := by
    simp only [processFrom, h1, h2]
  have hfrom : processFrom env w path initState (env.parseMd content) =
      .error (.MissingHandler path (lang.drop 7)) := by
    rw [hparse, processFrom_append_ok env w path pre _ initState st hpre]
    exact hy
  have hmd : process_md env w path =
      .error (.MissingHandler path (lang.drop 7)) := by
    simp only [process_md, hread, hfrom]
  refine ⟨hmd, ?_⟩
  cases hsp : stripPrefixPath w.config.content_path path with
  | none => simp [process_file, hsp]
  | some rel => simp [process_file, hsp, hmd]

/-- Witness for the C7 theorem: the unregistered handler name `bogus`
reached through the fence language `cuddly_bogus`. -/
theorem missing_handler_error_witness :
    process_md c7env c7website ["d.md"] =
      .error (.MissingHandler ["d.md"] "bogus") ∧
    (process_file c7env c7website ["d.md"]).2 = [] :=
  missing_handler_error c7env c7website ["d.md"] "" [] [] "cuddly_bogus"
    "cfg" initState rfl rfl (by decide) rfl rfl

/-- C8: every event retained in the output stream by a successful run of
the `process_md` event loop is free of reserved fence markup — no
block-start or block-end of a `templateinfo` or `cuddly_*` fenced block
survives — and an entire `templateinfo` directive block (its start, its
text-runs and its end) contributes nothing to the output stream. -/
theorem reserved_fences_suppressed :
    (∀ (env : Env) (w : Website) (path : Path) (evs : List Event)
      (st : MdState), processEvents env w path evs = .ok st →
      ∀ e ∈ st.out, reservedFence e = false) ∧
    (∀ (env : Env) (w : Website) (path : Path) (ts : List String)
      (st : MdState),
      processFrom env w path st
        (fenceStart "templateinfo" ::
          (ts.map Event.text ++ [fenceStop "templateinfo"])) =
        .ok ⟨none, lastBuf w ts st.template_info, st.out⟩) := by
  constructor
  · intro env w path evs st h e he
    simp only [processEvents] at h
    rcases processFrom_out_reserved env w path evs initState st h e he with
      h1 | h2
    · simp [initState] at h1
    · exact h2
  · intro env w path ts st
    exact processFrom_ti_block env w path ts st

/-- Witness for the C8 theorem at a concrete document: the trailing text
event survives and is no reserved fence marker, while the whole metadata
block is suppressed. -/
theorem reserved_fences_suppressed_witness :
    reservedFence (Event.text "y") = false :=
  reserved_fences_suppressed.1 baseEnv baseWebsite ["d.md"]
    [fenceStart "templateinfo", Event.text "x", fenceStop "templateinfo",
      Event.text "y"]
    ⟨none, some "x", [Event.text "y"]⟩ (by decide) (Event.text "y")
    (by decide)

/-- C1 counterexample: a metadata block with the two text-runs `"aa"` and
`"bb"` buffers `"bb"` — the last run, not the concatenation `"aabb"` —
and `process_md` hands exactly that last run to the metadata parser
(the parser here accepts only `"bb"` and rejects everything else, so a
successful parse identifies the string it received). -/
theorem metadata_concat_counterexample :
    processFrom c1env baseWebsite ["d.md"] initState
        [fenceStart "templateinfo", Event.text "aa", Event.text "bb",
          fenceStop "templateinfo"] =
      .ok ⟨none, some "bb", []⟩ ∧
    process_md c1env baseWebsite ["d.md"] =
      .ok ("",
        { demoTemplateInfo with
          style := ["content", "s.css"], template := ["content", "t.html"] }) ∧
    c1env.parseTemplateInfo ("aa" ++ "bb") = .error "not the last run" ∧
    "bb" ≠ "aa" ++ "bb" :=
  ⟨by decide, by decide, rfl, by decide⟩

/-- C1 (amended): when a document's metadata directive block contains
text-runs ending in `tlast` and no later `templateinfo` fence opens, the
metadata source buffered by the event pipeline is the LAST text-run's
emoji-substituted text — each run overwrites the previous buffer, so
multiple runs are not concatenated — and the `TemplateInfo` returned by
`process_md` is parsed from that buffered last run (via `finishMd`). -/
theorem metadata_source_is_last_text_run
    (env : Env) (w : Website) (path : Path) (content : String)
    (pre post : List Event) (ts : List String) (tlast : String)
    (stAll : MdState)
    (hread : env.readFile path = .ok content)
    (hparse : env.parseMd content =
      pre ++ (fenceStart "templateinfo" ::
        (ts.map Event.text ++ [fenceStop "templateinfo"])) ++ post)
    (hlast : ts.getLast? = some tlast)
    (hpost : fenceStart "templateinfo" ∉ post)
    (hall : processFrom env w path initState (env.parseMd content) =
      .ok stAll) :
    stAll.template_info = some (w.emoji_replacer tlast) ∧
    process_md env w path = finishMd env w path stAll := by
  have hall2 := hall
  rw [hparse] at hall2
  cases h0 : processFrom env w path initState pre with
  | error e =>
    have hx := processFrom_append_error env w path pre
      (fenceStart "templateinfo" ::
        (ts.map Event.text ++ [fenceStop "templateinfo"])) initState e h0
    have hy := processFrom_append_error env w path _ post initState e hx
    rw [hy] at hall2
    cases hall2
  | panic =>
    have hx := processFrom_append_panic env w path pre
      (fenceStart "templateinfo" ::
        (ts.map Event.text ++ [fenceStop "templateinfo"])) initState h0
    have hy := processFrom_append_panic env w path _ post initState hx
    rw [hy] at hall2
    cases hall2
  | ok st0 =>
    have ha := processFrom_append_ok env w path pre
      (fenceStart "templateinfo" ::
        (ts.map Event.text ++ [fenceStop "templateinfo"])) initState st0 h0
    rw [processFrom_ti_block] at ha
    have hb := processFrom_append_ok env w path _ post initState _ ha
    rw [hb] at hall2
    have h1 : stAll.template_info = lastBuf w ts st0.template_info :=
      processFrom_ti_stable env w path post _ stAll hpost (by simp) hall2
    rw [lastBuf_getLast w ts st0.template_info tlast hlast] at h1
    refine ⟨h1, ?_⟩
    simp only [process_md, hread, hall]

/-- Witness for the amended C1 theorem at the concrete two-run
document. -/
theorem metadata_source_is_last_text_run_witness :
    (⟨none, some "bb", []⟩ : MdState).template_info =
      some (baseWebsite.emoji_replacer "bb") ∧
    process_md c1env baseWebsite ["d.md"] =
      finishMd c1env baseWebsite ["d.md"] ⟨none, some "bb", []⟩ :=
  metadata_source_is_last_text_run c1env baseWebsite ["d.md"] "" [] []
    ["aa", "bb"] "bb" ⟨none, some "bb", []⟩ rfl (by decide) (by decide)
    (by decide) (by decide)

/-- C3 counterexample: for a document whose metadata parses to the
document-relative paths of `demoTemplateInfo`, `process_md` returns the
`favicon` field unrebased (`f.ico`, not `content/f.ico`), so not all
three path fields are rebased onto the content root. -/
theorem favicon_rebase_counterexample :
    process_md c3env baseWebsite ["d.md"] =
      .ok ("",
        { style := ["content", "s.css"], template := ["content", "t.html"],
          favicon := ["f.ico"], time := "2021-01-01", title := "Title",
          description := "Desc" }) ∧
    (["f.ico"] : Path) ≠ ["content", "f.ico"] :=
  ⟨by decide, by decide⟩

/-- C3 (amended): of the three path fields of the `TemplateInfo` record
returned by `process_md`, only `style` and `template` are rebased onto
the content root before the record is returned; `favicon` is returned
document-relative and is resolved against the content root only later,
when `read_to_base64` reads it. -/
theorem process_md_rebases_style_template_only
    (env : Env) (w : Website) (path : Path) (content src : String)
    (st : MdState) (ti : TemplateInfo)
    (hread : env.readFile path = .ok content)
    (hrun : processFrom env w path initState (env.parseMd content) = .ok st)
    (hsrc : st.template_info = some src)
    (hti : env.parseTemplateInfo src = .ok ti) :
    process_md env w path =
      .ok (env.renderHtml st.out,
        { ti with
          style := w.config.content_path ++ ti.style,
          template := w.config.content_path ++ ti.template }) ∧
    (∀ data, env.readFile (w.config.content_path ++ ti.favicon) = .ok data →
      read_to_base64 env w ti.favicon = .ok (env.base64 data)) := by
  constructor
  · simp only [process_md, hread, hrun, finishMd, hsrc, hti]
  · intro data hdata
    simp only [read_to_base64, hdata]

/-- Witness for the amended C3 theorem: the returned record keeps
`favicon` document-relative and the later read resolves it under the
content root. -/
theorem process_md_rebases_style_template_only_witness :
    process_md c3env baseWebsite ["d.md"] =
      .ok ("",
        { demoTemplateInfo with
          style := ["content", "s.css"],
          template := ["content", "t.html"] }) ∧
    read_to_base64 c3env baseWebsite ["f.ico"] = .ok "" :=
  ⟨(process_md_rebases_style_template_only c3env baseWebsite ["d.md"] "" "m"
      ⟨none, some "m", []⟩ demoTemplateInfo rfl (by decide) rfl rfl).1,
    (process_md_rebases_style_template_only c3env baseWebsite ["d.md"] "" "m"
      ⟨none, some "m", []⟩ demoTemplateInfo rfl (by decide) rfl rfl).2 ""
      rfl⟩

/-- C4 counterexample: the site context the header document is processed
with carries an empty `header` field, while the context every later
document reads carries the rendered header `"HDR"` — the context is
mutated after construction, after document processing has already
begun. -/
theorem site_context_header_mutation_counterexample :
    websitesHeaderPair (createWebsites c4env ["site.toml"]) =
      some ("", "HDR") ∧ ("" : String) ≠ "HDR" :=
  ⟨by decide, by decide⟩

/-- C4 (amended): `Website::create` builds the context with an empty
header, processes the header document against that context, and then —
after that document's processing — rewrites the `header` field once
(rebuilding the shared context); every other field (theme, syntax set,
emoji table, config, handler table) is identical in the two context
values, and the second context's header is exactly the header document's
rendered body. -/
theorem create_mutates_only_header_once
    (env : Env) (p : Path) (w1 w2 : Website)
    (h : createWebsites env p = .ok (w1, w2)) :
    w2.theme = w1.theme ∧ w2.syntax_set = w1.syntax_set ∧
    w2.emoji_replacer = w1.emoji_replacer ∧ w2.config = w1.config ∧
    w2.handlers = w1.handlers ∧
    ∃ r, process_md env w1
        (w1.config.content_path ++ w1.config.header_file) = .ok r ∧
      w2.header = r.1 := by
  simp only [createWebsites] at h
  cases hr : env.readFile p with
  | error e => simp [hr] at h
  | ok ctext =>
    simp only [hr] at h
    cases hc : env.parseConfig ctext with
    | error e => simp [hc] at h
    | ok config =>
      simp only [hc] at h
      cases hs : env.loadSyntaxes with
      | error e => simp [hs] at h
      | ok syntax_fn =>
        simp only [hs] at h
        cases hth : env.themes config.syntax_theme with
        | none => simp [hth] at h
        | some theme =>
          simp only [hth] at h
          split at h
          · cases h
          · cases h
          · rename_i hres hmd
            simp only [PResult.ok.injEq, Prod.mk.injEq] at h
            obtain ⟨h1, h2⟩ := h
            subst h1
            subst h2
            exact ⟨rfl, rfl, rfl, rfl, rfl, hres, hmd, rfl⟩

/-- Witness for the amended C4 theorem at the concrete `c4env` build. -/
theorem create_mutates_only_header_once_witness :
    c4w2.theme = c4w1.theme ∧ c4w2.handlers = c4w1.handlers :=
  ⟨(create_mutates_only_header_once c4env ["site.toml"] c4w1 c4w2 rfl).1,
    (create_mutates_only_header_once c4env ["site.toml"] c4w1 c4w2
      rfl).2.2.2.2.1⟩

end CuddlyKangaroo
